import Mathlib

/-!
Verification of the AssistLink booking/slot lifecycle core.

Shallow embedding of `backend/app/routers/bookings.py` and
`backend/app/routers/caregivers.py`.  Timestamps (Python timezone-aware
datetimes combined with `timedelta` arithmetic on hours/minutes/seconds)
are modelled as rationals `Rat` in a fixed unit per component (the unit is
named at each definition); only order and affine arithmetic on instants are
used by the source, which `Rat` models exactly (Python floats such as
`duration_hours` are modelled as exact rationals; no claim here depends on
float rounding).  Database rows are modelled as Lean structures, tables as
lists, and fallible endpoints as `Except`-style results.
-/

set_option autoImplicit false

namespace AssistLink

/-- A time instant / duration. -/
abbrev Time := Rat

/-- `_slot_overlap` from both routers (caregivers.py line 402, bookings.py
line 1063): `req_start < b_end and req_end > b_start`. -/
def slot_overlap (startA endA startB endB : Time) : Bool :=
  decide (startA < endB) && decide (endA > startB)

/-- Blocking statuses used by slot availability (caregivers.py line 452,
bookings.py line 1112). -/
def blocking_statuses_slots : List String :=
  ["requested", "accepted", "confirmed", "in_progress"]

/-- Blocking statuses used by the video-call-request pre-check
(bookings.py line 78). -/
def blocking_statuses_video_request : List String :=
  ["accepted", "confirmed", "in_progress"]

/-! ## Booking state machine (bookings.py lines 999-1044) -/

/-- `VALID_TRANSITIONS` (bookings.py lines 999-1014), as the association
list underlying the Python dict. -/
def VALID_TRANSITIONS : List ((String × String) × List String) :=
  [ (("draft", "care_recipient"), ["requested"]),
    (("requested", "care_recipient"), ["cancelled"]),
    (("accepted", "care_recipient"), ["cancelled"]),
    (("confirmed", "care_recipient"), ["cancelled"]),
    (("in_progress", "care_recipient"), ["completed", "cancelled"]),
    (("requested", "caregiver"), ["accepted", "cancelled"]),
    (("accepted", "caregiver"), ["cancelled"]),
    (("confirmed", "caregiver"), ["in_progress", "cancelled"]),
    (("in_progress", "caregiver"), ["completed", "cancelled"]) ]

/-- The four distinct failures `validate_booking_transition` can raise:
`terminalState` and `invalidTransition` are generic `ConflictError`s,
`completedNotInProgress` is the specialized `ConflictError` message for
target `completed`, `roleNotPermitted` is the `AuthorizationError`. -/
inductive TransErr where
  | terminalState
  | roleNotPermitted
  | completedNotInProgress
  | invalidTransition
deriving DecidableEq

/-- `validate_booking_transition` (bookings.py lines 1016-1044).
`none` means the transition is accepted; `some e` identifies the raised
error. -/
def validate_booking_transition (current_status new_status user_role : String) :
    Option TransErr :=
  if current_status = "completed" ∨ current_status = "cancelled" then
    some .terminalState
  else
    let allowed := (VALID_TRANSITIONS.lookup (current_status, user_role)).getD []
    if allowed ≠ [] ∧ allowed.contains new_status then
      none
    else
      let is_possible_somehow :=
        VALID_TRANSITIONS.any fun p => p.1.1 == current_status && p.2.contains new_status
      if is_possible_somehow then
        some .roleNotPermitted
      else if new_status = "completed" then
        some .completedNotInProgress
      else
        some .invalidTransition

/-- The seven booking statuses of the data model. -/
def booking_statuses : List String :=
  ["draft", "requested", "accepted", "confirmed", "in_progress", "completed", "cancelled"]

/-- Written from the WORDS of spec section 4.4 (the transition table), for
comparison against `VALID_TRANSITIONS`: allowed target statuses for a
(current status, actor role) pair. -/
def spec_allowed_targets (current role : String) : List String :=
  match current, role with
  | "draft", "care_recipient" => ["requested"]
  | "requested", "care_recipient" => ["cancelled"]
  | "requested", "caregiver" => ["accepted", "cancelled"]
  | "accepted", "care_recipient" => ["cancelled"]
  | "accepted", "caregiver" => ["cancelled"]
  | "confirmed", "care_recipient" => ["cancelled"]
  | "confirmed", "caregiver" => ["in_progress", "cancelled"]
  | "in_progress", "care_recipient" => ["completed", "cancelled"]
  | "in_progress", "caregiver" => ["completed", "cancelled"]
  | _, _ => []

/-- Spec section 4.4: the pair (current, role) allows target. -/
def spec_allows (current role target : String) : Bool :=
  (spec_allowed_targets current role).contains target

/-- Spec section 4.4 step 2a: target reachable from current by any role. -/
def spec_reachable_by_any_role (current target : String) : Bool :=
  spec_allows current "care_recipient" target || spec_allows current "caregiver" target

/-! ## Claims C4 and C2 -/

/-- C4: the overlap predicate equals `startA < endB AND endA > startB`; it
is symmetric; touching intervals (endA = startB) do not overlap; and every
well-formed interval overlaps itself. -/
theorem c4_overlap_correctness :
    (∀ a b c d : Time, slot_overlap a b c d = (decide (a < d) && decide (b > c))) ∧
    (∀ a b c d : Time, slot_overlap a b c d = true ↔ slot_overlap c d a b = true) ∧
    (∀ a b d : Time, slot_overlap a b b d = false) ∧
    (∀ s e : Time, s < e → slot_overlap s e s e = true) := by
  refine ⟨fun a b c d => rfl, fun a b c d => ?_, fun a b d => ?_, fun s e h => ?_⟩
  · simp only [slot_overlap, Bool.and_eq_true, decide_eq_true_eq]
    constructor <;> exact fun ⟨h1, h2⟩ => ⟨h2, h1⟩
  · simp [slot_overlap]
  · simp only [slot_overlap, Bool.and_eq_true, decide_eq_true_eq]
    exact ⟨h, h⟩

/-- Witness for `c4_overlap_correctness`: the identical interval [0, 1)
overlaps itself. -/
theorem c4_overlap_correctness_witness :
    slot_overlap 0 1 0 1 = true :=
  c4_overlap_correctness.2.2.2 0 1 (by norm_num)

/-- C2: for a non-terminal current status, `validate_booking_transition`
succeeds exactly when the spec section 4.4 table maps (current, role) to a
set containing the target; otherwise it raises AuthorizationError exactly
when the target is reachable from current under some role, and otherwise a
ConflictError, specialized exactly when the target is "completed" (which,
for target "completed", happens exactly when current is not
"in_progress"). -/
theorem c2_transition_validation :
    ∀ current new_status role : String,
      current ∈ booking_statuses →
      new_status ∈ booking_statuses →
      role ∈ ["care_recipient", "caregiver"] →
      ¬(current = "completed" ∨ current = "cancelled") →
      (validate_booking_transition current new_status role = none ↔
        spec_allows current role new_status = true) ∧
      (validate_booking_transition current new_status role = some .roleNotPermitted ↔
        (spec_allows current role new_status = false ∧
         spec_reachable_by_any_role current new_status = true)) ∧
      (validate_booking_transition current new_status role = some .completedNotInProgress ↔
        (spec_reachable_by_any_role current new_status = false ∧
         new_status = "completed")) ∧
      (validate_booking_transition current new_status role = some .invalidTransition ↔
        (spec_reachable_by_any_role current new_status = false ∧
         new_status ≠ "completed")) ∧
      (new_status = "completed" →
        (spec_reachable_by_any_role current new_status = true ↔
         current = "in_progress")) := by
  intro current new_status role hc hn hr
  fin_cases hc <;> fin_cases hn <;> fin_cases hr <;> decide

/-- Witness for `c2_transition_validation`: a caregiver may accept a
requested booking, and this is exactly what the spec table allows. -/
theorem c2_transition_validation_witness :
    validate_booking_transition "requested" "accepted" "caregiver" = none :=
  (c2_transition_validation "requested" "accepted" "caregiver"
    (by decide) (by decide) (by decide) (by decide)).1.mpr (by decide)

/-! ## Booking transition endpoints (bookings.py lines 1386-1656)

The booking row is modelled by the fields these endpoints read or write;
`now` stands for `datetime.now(timezone.utc)` in an arbitrary time unit. -/

/-- The booking-row fields touched by the transition endpoints. -/
structure Bk where
  status : String
  accepted_at : Option Time := none
  completed_at : Option Time := none
  updated_at : Option Time := none
  cancellation_reason : Option String := none
deriving DecidableEq

/-- One `booking_history` row (`_log_booking_history`, lines 1048-1060). -/
structure HistRow where
  previous_status : Option String
  new_status : String
  changed_by : String
  reason : Option String
deriving DecidableEq

/-- Error kinds raised by the endpoints (app.error_handler classes). -/
inductive BErr where
  | validationE
  | conflictE
  | authzE
  | dbE
deriving DecidableEq

/-- How the endpoints surface a `validate_booking_transition` failure:
`AuthorizationError` for the role case, `ConflictError` otherwise. -/
def map_trans_err : TransErr → BErr
  | .roleNotPermitted => .authzE
  | _ => .conflictE

/-- `respond_to_booking` (POST /{id}/respond, lines 1449-1567), for a
caller already verified to be the assigned caregiver.  Returns the booking
row after the call and the history row appended (if any). -/
def respond_to_booking (b : Bk) (user_id req_status : String)
    (reason : Option String) (now : Time) : Except BErr (Bk × Option HistRow) :=
  let new_status := if req_status = "rejected" then "cancelled" else req_status
  if ¬(new_status = "accepted" ∨ new_status = "cancelled") then
    .error .validationE
  else if b.status = new_status then
    .ok (b, none)
  else
    match validate_booking_transition b.status new_status "caregiver" with
    | some e => .error (map_trans_err e)
    | none =>
      let b1 : Bk :=
        { b with status := new_status, updated_at := some now }
      let b2 : Bk :=
        if new_status = "accepted" then { b1 with accepted_at := some now }
        else { b1 with cancellation_reason := some (reason.getD "Rejected by caregiver") }
      .ok (b2, some ⟨some b.status, new_status, user_id, reason⟩)

/-- `update_booking_status` (PATCH /{id}/status, lines 1570-1656), for a
caller already verified to be a party to the booking; `role_in` is the role
resolved from the user row. -/
def update_booking_status (b : Bk) (user_id req_status role_in : String)
    (reason : Option String) (now : Time) : Except BErr (Bk × Option HistRow) :=
  let role := if role_in = "care_recipient" ∨ role_in = "caregiver" then role_in
              else "care_recipient"
  match validate_booking_transition b.status req_status role with
  | some e => .error (map_trans_err e)
  | none =>
    let b1 : Bk := { b with status := req_status, updated_at := some now }
    let b2 : Bk := if req_status = "completed" then { b1 with completed_at := some now } else b1
    let b3 : Bk := if req_status = "cancelled" then { b2 with cancellation_reason := reason } else b2
    .ok (b3, some ⟨some b.status, req_status, user_id, reason⟩)

/-- `complete_booking` (POST /{id}/complete, lines 1386-1446), for a caller
already verified to be a party; the cascading update of a linked video-call
row touches another table and is outside the booking row modelled here. -/
def complete_booking (b : Bk) (user_id role : String) (now : Time) :
    Except BErr (Bk × Option HistRow) :=
  if b.status = "completed" then
    .ok (b, none)
  else
    match validate_booking_transition b.status "completed" role with
    | some e => .error (map_trans_err e)
    | none =>
      .ok ({ b with status := "completed", completed_at := some now, updated_at := some now },
           some ⟨some b.status, "completed", user_id, some "Marked complete"⟩)

/-- The booking update performed by `complete_video_call`
(POST /video-call/{id}/complete, lines 843-852 and 861-867) on the booking
linked to the call: set `completed` only when currently `in_progress`.
No history row is ever appended on this path. -/
def complete_video_call_booking_update (b : Bk) (now : Time) : Bk × Option HistRow :=
  if b.status = "in_progress" then
    ({ b with status := "completed", completed_at := some now, updated_at := some now }, none)
  else
    (b, none)

/-- In a terminal state the validator raises the terminal ConflictError
whatever the target and role. -/
theorem validate_terminal {c : String} (n r : String)
    (hc : c = "completed" ∨ c = "cancelled") :
    validate_booking_transition c n r = some .terminalState := by
  unfold validate_booking_transition
  rw [if_pos hc]

/-- A successful `List.lookup` finds one of the listed pairs. -/
theorem lookup_mem {α β : Type} [BEq α] [LawfulBEq α] {k : α} {v : β} :
    ∀ {l : List (α × β)}, l.lookup k = some v → (k, v) ∈ l := by
  intro l
  induction l with
  | nil => intro h; simp [List.lookup] at h
  | cons p t ih =>
    intro h
    rw [List.lookup] at h
    by_cases hk : k == p.1
    · cases p with
      | mk a b =>
        simp only [hk, cond_true, Option.some.injEq] at h
        have hka : k = a := eq_of_beq hk
        subst hka
        subst h
        exact List.mem_cons_self _ _
    · simp only [hk, cond_false] at h
      exact List.mem_cons_of_mem _ (ih h)

/-- A transition the validator accepts always changes the status (the
table maps no status to itself). -/
theorem validate_ok_ne {c n r : String}
    (h : validate_booking_transition c n r = none) : n ≠ c := by
  unfold validate_booking_transition at h
  split at h
  · exact absurd h (by simp)
  · dsimp only at h
    split at h
    · next hcond =>
      obtain ⟨hne, hmem⟩ := hcond
      cases hl : VALID_TRANSITIONS.lookup (c, r) with
      | none => rw [hl] at hne; simp at hne
      | some l =>
        rw [hl] at hmem
        have hmem2 := lookup_mem hl
        simp only [VALID_TRANSITIONS, List.mem_cons, List.not_mem_nil, or_false,
          Prod.mk.injEq] at hmem2
        rcases hmem2 with ⟨⟨h1, h2⟩, h3⟩ | ⟨⟨h1, h2⟩, h3⟩ | ⟨⟨h1, h2⟩, h3⟩ |
          ⟨⟨h1, h2⟩, h3⟩ | ⟨⟨h1, h2⟩, h3⟩ | ⟨⟨h1, h2⟩, h3⟩ | ⟨⟨h1, h2⟩, h3⟩ |
          ⟨⟨h1, h2⟩, h3⟩ | ⟨⟨h1, h2⟩, h3⟩ <;>
          (subst h1; subst h3;
           have hn := List.mem_of_elem_eq_true hmem;
           simp only [Option.getD_some, List.mem_cons, List.not_mem_nil, or_false] at hn) <;>
          (first
            | (rcases hn with hn | hn <;> (subst hn; simp))
            | (subst hn; simp))
    · exfalso
      split at h
      · simp at h
      · split at h <;> simp at h

/-- The validator rejects every self-transition with a ConflictError,
whatever the status and role: the table maps no status to itself, from no
status is the same status reachable by any role, and terminal states are
rejected outright. -/
theorem validate_same_status (c r : String) :
    validate_booking_transition c c r = some .terminalState ∨
    validate_booking_transition c c r = some .invalidTransition := by
  by_cases hterm : c = "completed" ∨ c = "cancelled"
  · exact Or.inl (validate_terminal c r hterm)
  · right
    have hsucc : ¬((VALID_TRANSITIONS.lookup (c, r)).getD [] ≠ [] ∧
        ((VALID_TRANSITIONS.lookup (c, r)).getD []).contains c = true) := by
      rintro ⟨hne, hcont⟩
      cases hl : VALID_TRANSITIONS.lookup (c, r) with
      | none => rw [hl] at hne; simp at hne
      | some l =>
        rw [hl] at hcont
        have hmem2 := lookup_mem hl
        simp only [VALID_TRANSITIONS, List.mem_cons, List.not_mem_nil, or_false,
          Prod.mk.injEq] at hmem2
        rcases hmem2 with ⟨⟨h1, h2⟩, h3⟩ | ⟨⟨h1, h2⟩, h3⟩ | ⟨⟨h1, h2⟩, h3⟩ |
          ⟨⟨h1, h2⟩, h3⟩ | ⟨⟨h1, h2⟩, h3⟩ | ⟨⟨h1, h2⟩, h3⟩ | ⟨⟨h1, h2⟩, h3⟩ |
          ⟨⟨h1, h2⟩, h3⟩ | ⟨⟨h1, h2⟩, h3⟩ <;>
          (subst h1; subst h3;
           have hn := List.mem_of_elem_eq_true hcont;
           simp at hn)
    have hip : (VALID_TRANSITIONS.any fun p => p.1.1 == c && p.2.contains c) = false := by
      rw [Bool.eq_false_iff]
      intro hany
      obtain ⟨p, hp, hcomb⟩ := List.any_eq_true.mp hany
      simp only [Bool.and_eq_true, beq_iff_eq] at hcomb
      obtain ⟨hkey, hcont⟩ := hcomb
      have hmem := List.mem_of_elem_eq_true hcont
      simp only [VALID_TRANSITIONS, List.mem_cons, List.not_mem_nil, or_false] at hp
      rcases hp with rfl | rfl | rfl | rfl | rfl | rfl | rfl | rfl | rfl <;>
        (dsimp only at hkey hmem; subst hkey; simp at hmem)
    have hnc : ¬(c = "completed") := fun hcc => hterm (Or.inl hcc)
    simp only [validate_booking_transition]
    rw [if_neg hterm, if_neg hsucc, hip,
      if_neg (by decide : ¬(false = true)), if_neg hnc]

/-- How `respond_to_booking` treats a booking already in a terminal
state: a no-op success exactly for cancel-on-cancelled, otherwise
Conflict (or ValidationError for targets the endpoint never accepts). -/
theorem respond_terminal_eq (b : Bk) (uid req : String) (reason : Option String)
    (now : Time) (hb : b.status = "completed" ∨ b.status = "cancelled") :
    respond_to_booking b uid req reason now =
      (if b.status = "cancelled" ∧ (req = "cancelled" ∨ req = "rejected") then
        .ok (b, none)
       else if req = "accepted" ∨ req = "cancelled" ∨ req = "rejected" then
        .error .conflictE
       else
        .error .validationE) := by
  have hvalC : ∀ n r, validate_booking_transition "completed" n r = some .terminalState :=
    fun n r => validate_terminal n r (Or.inl rfl)
  have hvalX : ∀ n r, validate_booking_transition "cancelled" n r = some .terminalState :=
    fun n r => validate_terminal n r (Or.inr rfl)
  by_cases h1 : req = "rejected"
  · rcases hb with hb | hb <;>
      simp [respond_to_booking, h1, hb, hvalC, hvalX, map_trans_err]
  · by_cases h2 : req = "cancelled"
    · rcases hb with hb | hb <;>
        simp [respond_to_booking, h1, h2, hb, hvalC, hvalX, map_trans_err]
    · by_cases h3 : req = "accepted"
      · rcases hb with hb | hb <;>
          simp [respond_to_booking, h1, h2, h3, hb, hvalC, hvalX, map_trans_err]
      · simp [respond_to_booking, h1, h2, h3, map_trans_err]

/-- C3 (amended): once a booking is completed or cancelled, PATCH /status
always fails with Conflict; POST /respond fails with Conflict — except
that targeting cancelled/rejected on an already-cancelled booking is a
no-op success, and targets other than accepted/cancelled/rejected fail
with ValidationError before the terminal check; POST /complete fails with
Conflict on a cancelled booking but is a no-op success on a completed one.
In every case the booking row is returned/left unchanged and no history
row is appended. -/
theorem c3_terminal_immutability :
    ∀ (b : Bk) (user_id req_status role : String) (reason : Option String) (now : Time),
      (b.status = "completed" ∨ b.status = "cancelled") →
      update_booking_status b user_id req_status role reason now = .error .conflictE ∧
      respond_to_booking b user_id req_status reason now =
        (if b.status = "cancelled" ∧ (req_status = "cancelled" ∨ req_status = "rejected") then
          .ok (b, none)
         else if req_status = "accepted" ∨ req_status = "cancelled" ∨ req_status = "rejected" then
          .error .conflictE
         else
          .error .validationE) ∧
      complete_booking b user_id role now =
        (if b.status = "completed" then .ok (b, none) else .error .conflictE) := by
  intro b uid req role reason now hb
  have hvalC : ∀ n r, validate_booking_transition "completed" n r = some .terminalState :=
    fun n r => validate_terminal n r (Or.inl rfl)
  have hvalX : ∀ n r, validate_booking_transition "cancelled" n r = some .terminalState :=
    fun n r => validate_terminal n r (Or.inr rfl)
  refine ⟨?_, respond_terminal_eq b uid req reason now hb, ?_⟩
  · rcases hb with hb | hb <;>
      simp [update_booking_status, hb, hvalC, hvalX, map_trans_err]
  · rcases hb with hb | hb <;>
      simp [complete_booking, hb, hvalC, hvalX, map_trans_err]

/-- Witness for `c3_terminal_immutability`: a cancelled booking rejects a
caregiver acceptance attempt on all three endpoints. -/
theorem c3_terminal_immutability_witness :
    update_booking_status { status := "cancelled" } "u1" "accepted" "caregiver" none 0 =
      .error .conflictE :=
  (c3_terminal_immutability { status := "cancelled" } "u1" "accepted" "caregiver" none 0
    (Or.inr rfl)).1

/-- Counterexample to C3 as stated: POST /complete on an already-completed
booking returns the booking as a success (idempotent no-op) instead of
failing with Conflict. -/
theorem c3_counterexample :
    complete_booking { status := "completed" } "u1" "caregiver" 5 =
      .ok ({ status := "completed" }, none) := by
  simp [complete_booking]

/-- C7 (amended): a same-status transition request is a no-op success —
returning the booking unchanged with no history row — on POST /respond
(for its accepted/cancelled targets) and on POST /complete; but PATCH
/status has no idempotence guard and fails every same-status request with
Conflict, whatever the booking's status and the caller's role. -/
theorem c7_transition_idempotence :
    ∀ (b : Bk) (user_id role : String) (reason : Option String) (now : Time),
      ((b.status = "accepted" ∨ b.status = "cancelled") →
        respond_to_booking b user_id b.status reason now = .ok (b, none)) ∧
      (b.status = "completed" → complete_booking b user_id role now = .ok (b, none)) ∧
      update_booking_status b user_id b.status role reason now = .error .conflictE := by
  intro b uid role reason now
  refine ⟨?_, ?_, ?_⟩
  · intro hb
    rcases hb with hb | hb <;> simp [respond_to_booking, hb]
  · intro hb
    simp [complete_booking, hb]
  · rcases validate_same_status b.status
        (if role = "care_recipient" ∨ role = "caregiver" then role
         else "care_recipient") with h | h <;>
      simp [update_booking_status, h, map_trans_err]

/-- Witness for `c7_transition_idempotence`: accepting an already-accepted
booking via /respond returns it unchanged. -/
theorem c7_transition_idempotence_witness :
    respond_to_booking { status := "accepted" } "u1" "accepted" none 0 =
      .ok ({ status := "accepted" }, none) :=
  (c7_transition_idempotence { status := "accepted" } "u1" "caregiver" none 0).1
    (Or.inl rfl)

/-- Counterexample to C7 as stated: PATCH /status with target equal to the
current status fails with Conflict instead of being a no-op success. -/
theorem c7_counterexample :
    update_booking_status { status := "accepted" } "u1" "accepted" "caregiver" none 0 =
      .error .conflictE := rfl

/-- C8 (amended): the booking transition endpoints (/respond, /status,
/complete) append exactly one history row — recording previous status, new
status and actor — for every successful status-changing call, and none for
an idempotent no-op; but the booking update performed by
`complete_video_call` changes an in_progress booking to completed without
appending any history row (and the orchestrator-created booking of
`accept_video_call_request` has no creation row either, see
`accept_video_call_request` below), so history count equals
status-change count only for mutations made through the booking
endpoints. -/
theorem c8_history_completeness :
    (∀ (b : Bk) (uid req : String) (reason : Option String) (now : Time) (b2 : Bk) (h : HistRow),
       respond_to_booking b uid req reason now = .ok (b2, some h) →
         b2.status ≠ b.status ∧ h.previous_status = some b.status ∧
         h.new_status = b2.status ∧ h.changed_by = uid) ∧
    (∀ (b : Bk) (uid req : String) (reason : Option String) (now : Time) (b2 : Bk),
       respond_to_booking b uid req reason now = .ok (b2, none) → b2 = b) ∧
    (∀ (b : Bk) (uid req role : String) (reason : Option String) (now : Time) (b2 : Bk) (h : HistRow),
       update_booking_status b uid req role reason now = .ok (b2, some h) →
         b2.status ≠ b.status ∧ h.previous_status = some b.status ∧
         h.new_status = b2.status ∧ h.changed_by = uid) ∧
    (∀ (b : Bk) (uid req role : String) (reason : Option String) (now : Time) (b2 : Bk),
       update_booking_status b uid req role reason now = .ok (b2, none) → False) ∧
    (∀ (b : Bk) (uid role : String) (now : Time) (b2 : Bk) (h : HistRow),
       complete_booking b uid role now = .ok (b2, some h) →
         b2.status ≠ b.status ∧ h.previous_status = some b.status ∧
         h.new_status = b2.status ∧ h.changed_by = uid) ∧
    (∀ (b : Bk) (uid role : String) (now : Time) (b2 : Bk),
       complete_booking b uid role now = .ok (b2, none) → b2 = b) ∧
    (∀ (b : Bk) (now : Time), (complete_video_call_booking_update b now).2 = none) ∧
    (∀ (b : Bk) (now : Time), b.status = "in_progress" →
       (complete_video_call_booking_update b now).1.status = "completed" ∧
       (complete_video_call_booking_update b now).1.status ≠ b.status) := by
  refine ⟨?_, ?_, ?_, ?_, ?_, ?_, ?_, ?_⟩
  · intro b uid req reason now b2 h hok
    by_cases hrj : req = "rejected"
    · simp only [respond_to_booking, hrj] at hok
      simp at hok
      split at hok
      · exact absurd hok (by simp)
      · next hne =>
        split at hok
        · exact absurd hok (by simp)
        · simp only [Except.ok.injEq, Prod.mk.injEq, Option.some.injEq] at hok
          obtain ⟨hb2, hh⟩ := hok
          subst hh
          subst hb2
          exact ⟨fun hc => hne (by simpa using hc.symm), rfl, rfl, rfl⟩
    · simp only [respond_to_booking, if_neg hrj] at hok
      split at hok
      · exact absurd hok (by simp)
      · split at hok
        · exact absurd hok (by simp)
        · next hne =>
          split at hok
          · exact absurd hok (by simp)
          · simp only [Except.ok.injEq, Prod.mk.injEq, Option.some.injEq] at hok
            obtain ⟨hb2, hh⟩ := hok
            subst hh
            have hb2s : b2.status = req := by
              rw [← hb2]
              by_cases hacc : req = "accepted" <;> simp [hacc]
            exact ⟨by rw [hb2s]; exact fun hc => hne hc.symm, rfl, by rw [hb2s], rfl⟩
  · intro b uid req reason now b2 hok
    by_cases hrj : req = "rejected"
    · simp only [respond_to_booking, hrj] at hok
      simp at hok
      split at hok
      · simp only [Except.ok.injEq, Prod.mk.injEq] at hok
        exact hok.1.symm
      · split at hok
        · exact absurd hok (by simp)
        · exact absurd hok (by simp)
    · simp only [respond_to_booking, if_neg hrj] at hok
      split at hok
      · exact absurd hok (by simp)
      · split at hok
        · simp only [Except.ok.injEq, Prod.mk.injEq] at hok
          exact hok.1.symm
        · split at hok
          · exact absurd hok (by simp)
          · exact absurd hok (by simp)
  · intro b uid req role reason now b2 h hok
    simp only [update_booking_status] at hok
    split at hok
    · exact absurd hok (by simp)
    · next hv =>
      have hreq : req ≠ b.status := validate_ok_ne hv
      simp only [Except.ok.injEq, Prod.mk.injEq, Option.some.injEq] at hok
      obtain ⟨hb2, hh⟩ := hok
      subst hh
      have hst : b2.status = req := by
        subst hb2
        by_cases h1 : req = "completed" <;> by_cases h2 : req = "cancelled" <;> simp_all
      refine ⟨by rw [hst]; exact hreq, rfl, by rw [hst], rfl⟩
  · intro b uid req role reason now b2 hok
    simp only [update_booking_status] at hok
    split at hok
    · exact absurd hok (by simp)
    · exact absurd hok (by simp)
  · intro b uid role now b2 h hok
    simp only [complete_booking] at hok
    split at hok
    · exact absurd hok (by simp)
    · next hne =>
      split at hok
      · exact absurd hok (by simp)
      · simp only [Except.ok.injEq, Prod.mk.injEq, Option.some.injEq] at hok
        obtain ⟨hb2, hh⟩ := hok
        subst hh
        subst hb2
        exact ⟨fun hc => hne (by simpa using hc.symm), rfl, rfl, rfl⟩
  · intro b uid role now b2 hok
    simp only [complete_booking] at hok
    split at hok
    · simp only [Except.ok.injEq, Prod.mk.injEq] at hok
      exact hok.1.symm
    · split at hok
      · exact absurd hok (by simp)
      · exact absurd hok (by simp)
  · intro b now
    unfold complete_video_call_booking_update
    split <;> rfl
  · intro b now hb
    simp [complete_video_call_booking_update, hb]

/-- Witness for `c8_history_completeness`: a caregiver accepting a
requested booking yields exactly one history row requested → accepted. -/
theorem c8_history_completeness_witness :
    ({ status := "accepted", accepted_at := some 3, updated_at := some 3 } : Bk).status ≠
        ({ status := "requested" } : Bk).status ∧
      (⟨some "requested", "accepted", "u1", none⟩ : HistRow).previous_status =
        some ({ status := "requested" } : Bk).status ∧
      (⟨some "requested", "accepted", "u1", none⟩ : HistRow).new_status =
        ({ status := "accepted", accepted_at := some 3, updated_at := some 3 } : Bk).status ∧
      (⟨some "requested", "accepted", "u1", none⟩ : HistRow).changed_by = "u1" :=
  c8_history_completeness.1 { status := "requested" } "u1" "accepted" none 3
    { status := "accepted", accepted_at := some 3, updated_at := some 3 }
    ⟨some "requested", "accepted", "u1", none⟩ rfl

/-- Counterexample to C8 as stated: `complete_video_call` moves a booking
from in_progress to completed — a successful status-changing mutation —
while appending no BookingHistory row. -/
theorem c8_counterexample :
    (complete_video_call_booking_update { status := "in_progress" } 7).1.status = "completed" ∧
    ({ status := "in_progress" } : Bk).status ≠ "completed" ∧
    (complete_video_call_booking_update { status := "in_progress" } 7).2 = none := by
  refine ⟨rfl, by simp, rfl⟩

/-! ## Video-call acceptance orchestrator (bookings.py lines 258-646) -/

/-- The mutable fields of a `video_call_requests` row read or written by
the accept endpoint. -/
structure VCall where
  status : String
  care_recipient_accepted : Bool
  caregiver_accepted : Bool
  scheduled_time : Time
  duration_seconds : Rat
deriving DecidableEq

/-- The fields of a `bookings` row the orchestrator inserts or queries. -/
structure OBooking where
  id : Nat
  care_recipient_id : String
  caregiver_id : String
  video_call_request_id : Option Nat
  service_type : String
  scheduled_date : Time
  duration_hours : Rat
  status : String
deriving DecidableEq

/-- The fields of a `chat_sessions` row the orchestrator inserts or
queries. -/
structure ChatS where
  id : Nat
  care_recipient_id : String
  caregiver_id : String
  video_call_request_id : Option Nat
  is_enabled : Bool
  care_recipient_accepted : Bool
  caregiver_accepted : Bool
deriving DecidableEq

/-- Store state seen by the orchestrator: the targeted video-call row plus
the bookings and chat_sessions tables; `next_id` models the id the store
assigns to the next inserted row. -/
structure OrchState where
  vcr_id : Nat
  care_recipient_id : String
  caregiver_id : String
  vcr : VCall
  bookings : List OBooking
  chats : List ChatS
  next_id : Nat
deriving DecidableEq

/-- Result of the accept endpoint: the response ids, or the surfaced
DatabaseError after rollback. -/
inductive OrchOutcome where
  | ok (booking_id chat_session_id : Option Nat)
  | dbError
deriving DecidableEq

/-- The `update_data` applied to the video-call row (lines 322-353):
set the calling side's accepted flag; declining forces status declined;
accepting sets status accepted when both flags end up true, otherwise the
status is (kept) pending. -/
def vcall_after_update (vc : VCall) (isCR isCG accept : Bool) : VCall :=
  let cr_after := if isCR then accept else vc.care_recipient_accepted
  let cg_after := if isCG then accept else vc.caregiver_accepted
  let status_after :=
    if !accept then "declined"
    else if cr_after && cg_after then "accepted"
    else if vc.status ≠ "pending" then "pending"
    else vc.status
  { vc with
    status := status_after,
    care_recipient_accepted := cr_after,
    caregiver_accepted := cg_after }

/-- The booking-creation trigger (lines 386-411). -/
def should_create_booking (vc updated : VCall) (isCR isCG accept : Bool) : Bool :=
  let caregiver_just_accepted := isCG && accept && !vc.caregiver_accepted
  let care_recipient_just_accepted := isCR && accept && !vc.care_recipient_accepted
  let caregiver_already_accepted := vc.caregiver_accepted
  let both_accepted := updated.care_recipient_accepted && updated.caregiver_accepted
  let status_just_became_accepted :=
    (updated.status == "accepted") && (vc.status != "accepted")
  caregiver_just_accepted || (care_recipient_just_accepted && caregiver_already_accepted) ||
    status_just_became_accepted || both_accepted

/-- The rollback block (lines 514-544): revert the video-call row to its
pre-call status/flags; the delete of a created booking is deliberately a
no-op (`pass`, line 529); surface DatabaseError. -/
def orch_rollback (s1 : OrchState) (orig : VCall) : OrchState × OrchOutcome :=
  ({ s1 with
     vcr := { s1.vcr with
              status := orig.status,
              care_recipient_accepted := orig.care_recipient_accepted,
              caregiver_accepted := orig.caregiver_accepted } }, .dbError)

/-- The chat-session step (lines 489-507): find an existing session for
the pair, else insert a disabled one; `chat_insert_fails` injects a store
failure of that insert, which triggers the rollback. -/
def orch_chat_step (s1 : OrchState) (orig : VCall) (booking_id : Option Nat)
    (chat_insert_fails : Bool) : OrchState × OrchOutcome :=
  match s1.chats.find? fun c =>
      c.care_recipient_id == s1.care_recipient_id && c.caregiver_id == s1.caregiver_id with
  | some c => (s1, .ok booking_id (some c.id))
  | none =>
    if chat_insert_fails then orch_rollback s1 orig
    else
      let nc : ChatS :=
        { id := s1.next_id, care_recipient_id := s1.care_recipient_id,
          caregiver_id := s1.caregiver_id, video_call_request_id := some s1.vcr_id,
          is_enabled := false, care_recipient_accepted := false,
          caregiver_accepted := false }
      ({ s1 with chats := s1.chats ++ [nc], next_id := s1.next_id + 1 },
       .ok booking_id (some nc.id))

/-- `accept_video_call_request` (POST /video-call/{id}/accept, lines
258-646): apply the accept/decline update to the video-call row, then run
the find-or-create-booking / find-or-create-chat sequence with rollback on
failure.  `booking_insert_fails` / `chat_insert_fails` inject store
failures of the respective inserts; notification and availability-flag
side effects are swallowed by the source (nested try/except) and do not
touch this state. -/
def accept_video_call_request (s : OrchState) (isCR isCG accept : Bool)
    (booking_insert_fails chat_insert_fails : Bool) : OrchState × OrchOutcome :=
  let vc := s.vcr
  let updated := vcall_after_update vc isCR isCG accept
  let s1 : OrchState := { s with vcr := updated }
  if should_create_booking vc updated isCR isCG accept then
    match s1.bookings.find? fun b => b.video_call_request_id == some s1.vcr_id with
    | some b => orch_chat_step s1 vc (some b.id) chat_insert_fails
    | none =>
      if booking_insert_fails then orch_rollback s1 vc
      else
        let nb : OBooking :=
          { id := s1.next_id, care_recipient_id := s1.care_recipient_id,
            caregiver_id := s1.caregiver_id, video_call_request_id := some s1.vcr_id,
            service_type := "video_call_session", scheduled_date := vc.scheduled_time,
            duration_hours := vc.duration_seconds / 3600, status := "accepted" }
        let s2 : OrchState :=
          { s1 with bookings := s1.bookings ++ [nb], next_id := s1.next_id + 1 }
        orch_chat_step s2 vc (some nb.id) chat_insert_fails
  else (s1, .ok none none)

/-- Reverting status and both accepted flags of an updated video-call row
restores the original row (the update touches no other field). -/
theorem vcall_restore (vc : VCall) (isCR isCG accept : Bool) :
    { vcall_after_update vc isCR isCG accept with
      status := vc.status,
      care_recipient_accepted := vc.care_recipient_accepted,
      caregiver_accepted := vc.caregiver_accepted } = vc := by
  cases vc
  rfl

/-- C5: if the booking-insert or chat-insert step of the accept
orchestration fails after the video-call row was updated, the endpoint
restores the video-call row's status and accepted flags to their pre-call
values, deletes no booking (the bookings table only ever grows), and
surfaces the failure as a DatabaseError. -/
theorem c5_orchestrator_rollback :
    ∀ (s : OrchState) (isCR isCG accept bf cf : Bool),
      should_create_booking s.vcr (vcall_after_update s.vcr isCR isCG accept)
          isCR isCG accept = true →
      (((s.bookings.find? fun b => b.video_call_request_id == some s.vcr_id) = none ∧
          bf = true) ∨
       ((s.chats.find? fun c => c.care_recipient_id == s.care_recipient_id &&
           c.caregiver_id == s.caregiver_id) = none ∧ cf = true ∧
        ¬((s.bookings.find? fun b => b.video_call_request_id == some s.vcr_id) = none ∧
            bf = true))) →
      (accept_video_call_request s isCR isCG accept bf cf).2 = .dbError ∧
      (accept_video_call_request s isCR isCG accept bf cf).1.vcr = s.vcr ∧
      ∃ extra, (accept_video_call_request s isCR isCG accept bf cf).1.bookings =
        s.bookings ++ extra := by
  intro s isCR isCG accept bf cf hsc hfail
  obtain ⟨vid, crid, cgid, ⟨vst, vcra, vcga, vt, vd⟩, bks, chs, nid⟩ := s
  dsimp only at hsc hfail ⊢
  rcases hfail with ⟨hbn, hbf⟩ | ⟨hcn, hcf, hnot⟩
  · subst hbf
    simp only [accept_video_call_request, hsc, reduceIte, hbn, orch_rollback]
    refine ⟨by trivial, by trivial, ⟨[], by simp⟩⟩
  · subst hcf
    cases hb : bks.find? fun b => b.video_call_request_id == some vid with
    | some b =>
      simp only [accept_video_call_request, hsc, reduceIte, hb, orch_chat_step, hcn,
        orch_rollback]
      refine ⟨by trivial, by trivial, ⟨[], by simp⟩⟩
    | none =>
      have hbf : bf = false := by
        cases bf
        · rfl
        · exact absurd ⟨hb, rfl⟩ hnot
      subst hbf
      simp only [accept_video_call_request, hsc, reduceIte, hb, orch_chat_step, hcn,
        orch_rollback]
      refine ⟨by trivial, by trivial, ⟨_, rfl⟩⟩

/-- Witness for `c5_orchestrator_rollback`: a caregiver accept on a fresh
pending request whose chat-session insert fails is rolled back. -/
theorem c5_orchestrator_rollback_witness :
    (accept_video_call_request ⟨1, "r", "g", ⟨"pending", false, false, 0, 900⟩, [], [], 10⟩
        false true true false true).2 = .dbError ∧
    (accept_video_call_request ⟨1, "r", "g", ⟨"pending", false, false, 0, 900⟩, [], [], 10⟩
        false true true false true).1.vcr = ⟨"pending", false, false, 0, 900⟩ ∧
    ∃ extra,
      (accept_video_call_request ⟨1, "r", "g", ⟨"pending", false, false, 0, 900⟩, [], [], 10⟩
          false true true false true).1.bookings = [] ++ extra :=
  c5_orchestrator_rollback ⟨1, "r", "g", ⟨"pending", false, false, 0, 900⟩, [], [], 10⟩
    false true true false true (by decide) (Or.inr (by decide))

/-- C6 (amended): on a pending request with both accepted flags false, a
caregiver accept sets caregiver_accepted, keeps care_recipient_accepted
false and the status pending, and — when no booking is yet linked to the
call — creates exactly one booking linked to the video call, with status
"accepted" (not "requested" as the spec states); when a linked booking
already exists it is found and no duplicate is created. -/
theorem c6_caregiver_accept_creates_booking :
    ∀ (s : OrchState),
      s.vcr.status = "pending" →
      s.vcr.care_recipient_accepted = false →
      s.vcr.caregiver_accepted = false →
      (accept_video_call_request s false true true false false).1.vcr.caregiver_accepted = true ∧
      (accept_video_call_request s false true true false false).1.vcr.care_recipient_accepted
          = false ∧
      (accept_video_call_request s false true true false false).1.vcr.status = "pending" ∧
      ((s.bookings.find? fun b => b.video_call_request_id == some s.vcr_id) = none →
        ∃ nb, (accept_video_call_request s false true true false false).1.bookings =
            s.bookings ++ [nb] ∧
          nb.video_call_request_id = some s.vcr_id ∧ nb.status = "accepted") ∧
      (∀ b0, (s.bookings.find? fun b => b.video_call_request_id == some s.vcr_id) = some b0 →
        (accept_video_call_request s false true true false false).1.bookings = s.bookings) := by
  intro s hst hcr hcg
  obtain ⟨vid, crid, cgid, ⟨vst, vcra, vcga, vt, vd⟩, bks, chs, nid⟩ := s
  dsimp only at hst hcr hcg ⊢
  subst hst; subst hcr; subst hcg
  have hsc : should_create_booking ⟨"pending", false, false, vt, vd⟩
      (vcall_after_update ⟨"pending", false, false, vt, vd⟩ false true true)
      false true true = true := rfl
  refine ⟨?_, ?_, ?_, ?_, ?_⟩
  · cases hb : bks.find? fun b => b.video_call_request_id == some vid with
    | some b =>
      cases hc : chs.find? fun c => c.care_recipient_id == crid && c.caregiver_id == cgid with
      | some c =>
        simp only [accept_video_call_request, hsc, reduceIte, hb, orch_chat_step, hc]
        rfl
      | none =>
        simp only [accept_video_call_request, hsc, reduceIte, hb, orch_chat_step, hc,
          orch_rollback]
        rfl
    | none =>
      cases hc : chs.find? fun c => c.care_recipient_id == crid && c.caregiver_id == cgid with
      | some c =>
        simp only [accept_video_call_request, hsc, reduceIte, hb, orch_chat_step, hc]
        rfl
      | none =>
        simp only [accept_video_call_request, hsc, reduceIte, hb, orch_chat_step, hc,
          orch_rollback]
        rfl
  · cases hb : bks.find? fun b => b.video_call_request_id == some vid with
    | some b =>
      cases hc : chs.find? fun c => c.care_recipient_id == crid && c.caregiver_id == cgid with
      | some c =>
        simp only [accept_video_call_request, hsc, reduceIte, hb, orch_chat_step, hc]
        rfl
      | none =>
        simp only [accept_video_call_request, hsc, reduceIte, hb, orch_chat_step, hc,
          orch_rollback]
        rfl
    | none =>
      cases hc : chs.find? fun c => c.care_recipient_id == crid && c.caregiver_id == cgid with
      | some c =>
        simp only [accept_video_call_request, hsc, reduceIte, hb, orch_chat_step, hc]
        rfl
      | none =>
        simp only [accept_video_call_request, hsc, reduceIte, hb, orch_chat_step, hc,
          orch_rollback]
        rfl
  · cases hb : bks.find? fun b => b.video_call_request_id == some vid with
    | some b =>
      cases hc : chs.find? fun c => c.care_recipient_id == crid && c.caregiver_id == cgid with
      | some c =>
        simp only [accept_video_call_request, hsc, reduceIte, hb, orch_chat_step, hc]
        rfl
      | none =>
        simp only [accept_video_call_request, hsc, reduceIte, hb, orch_chat_step, hc,
          orch_rollback]
        rfl
    | none =>
      cases hc : chs.find? fun c => c.care_recipient_id == crid && c.caregiver_id == cgid with
      | some c =>
        simp only [accept_video_call_request, hsc, reduceIte, hb, orch_chat_step, hc]
        rfl
      | none =>
        simp only [accept_video_call_request, hsc, reduceIte, hb, orch_chat_step, hc,
          orch_rollback]
        rfl
  · intro hb
    cases hc : chs.find? fun c => c.care_recipient_id == crid && c.caregiver_id == cgid with
    | some c =>
      simp only [accept_video_call_request, hsc, reduceIte, hb, orch_chat_step, hc]
      exact ⟨_, rfl, rfl, rfl⟩
    | none =>
      simp only [accept_video_call_request, hsc, reduceIte, hb, orch_chat_step, hc]
      exact ⟨_, rfl, rfl, rfl⟩
  · intro b0 hb
    cases hc : chs.find? fun c => c.care_recipient_id == crid && c.caregiver_id == cgid with
    | some c =>
      simp only [accept_video_call_request, hsc, reduceIte, hb, orch_chat_step, hc]
    | none =>
      simp only [accept_video_call_request, hsc, reduceIte, hb, orch_chat_step, hc]
      rfl

/-- Witness for `c6_caregiver_accept_creates_booking`: a fresh pending
request with an empty store. -/
theorem c6_caregiver_accept_creates_booking_witness :
    (accept_video_call_request ⟨1, "r", "g", ⟨"pending", false, false, 0, 900⟩, [], [], 10⟩
        false true true false false).1.vcr.caregiver_accepted = true :=
  (c6_caregiver_accept_creates_booking
    ⟨1, "r", "g", ⟨"pending", false, false, 0, 900⟩, [], [], 10⟩ rfl rfl rfl).1

/-- Counterexample to C6 as stated: the booking the orchestrator creates
when the caregiver accepts carries status "accepted", not "requested" —
after the call the bookings table holds exactly one row and its status is
"accepted". -/
theorem c6_counterexample :
    ((accept_video_call_request ⟨1, "r", "g", ⟨"pending", false, false, 0, 900⟩, [], [], 10⟩
        false true true false false).1.bookings.map OBooking.status) = ["accepted"] := rfl

/-! ## Slot availability listing (caregivers.py lines 402-485)

Times are in minutes (the slot length is `slot_duration_minutes` minutes,
one day is 1440 minutes, a booking of `duration_hours` hours spans
`60 * duration_hours` minutes). -/

/-- One element of the returned slot list. -/
structure SlotItem where
  start : Time
  stop : Time
  available : Bool
deriving DecidableEq

/-- The fields of a caregiver's booking row read by the slots query. -/
structure CgBooking where
  status : String
  scheduled_date : Time
  duration_hours : Rat
deriving DecidableEq

/-- One iteration body of the slot loop (lines 470-480): a slot is
unavailable when already past (end ≤ now) or when it overlaps a fetched
blocking interval. -/
def slot_item (slot_start delta now : Time) (blocking : List (Time × Time)) : SlotItem :=
  let slot_end := slot_start + delta
  if slot_end ≤ now then ⟨slot_start, slot_end, false⟩
  else ⟨slot_start, slot_end,
    !(blocking.any fun p => slot_overlap slot_start slot_end p.1 p.2)⟩

/-- The slot-generation while loop (lines 469-481); the `0 < delta` guard
reflects the handler's validation (line 432) under which the loop is
reached, and makes the recursion well-founded. -/
def generate_slots (slot_start to_parsed delta now : Time)
    (blocking : List (Time × Time)) : List SlotItem :=
  if h : 0 < delta ∧ slot_start + delta ≤ to_parsed then
    slot_item slot_start delta now blocking ::
      generate_slots (slot_start + delta) to_parsed delta now blocking
  else []
termination_by (⌈(to_parsed - slot_start) / delta⌉).toNat
decreasing_by
  obtain ⟨hd, hle⟩ := h
  have hne : delta ≠ 0 := ne_of_gt hd
  have hpos : 0 < ⌈(to_parsed - slot_start) / delta⌉ := by
    rw [Int.ceil_pos]
    have : 0 < to_parsed - slot_start := by linarith
    positivity
  have harg : (to_parsed - (slot_start + delta)) / delta =
      (to_parsed - slot_start) / delta - 1 := by
    field_simp
    ring
  rw [harg, Int.ceil_sub_one]
  omega

/-- `get_caregiver_slots` (GET /caregivers/{caregiver_id}/slots, lines
407-485), for an existing active caregiver whose bookings table is
`bookings`: validate the range, fetch the blocking bookings whose
scheduled_date lies within one day of the range (lines 447-467, including
the `dur <= 0` skip), and mark the generated slots. -/
def get_caregiver_slots (from_parsed to_parsed : Time) (slot_duration_minutes : Int)
    (now : Time) (bookings : List CgBooking) : Except BErr (List SlotItem) :=
  if ¬(from_parsed < to_parsed) then .error .validationE
  else if slot_duration_minutes ≤ 0 then .error .validationE
  else
    let range_start := from_parsed - 1440
    let range_end := to_parsed + 1440
    let blocking := bookings.filterMap fun b =>
      if b.status ∈ blocking_statuses_slots ∧ range_start ≤ b.scheduled_date ∧
          b.scheduled_date ≤ range_end ∧ 0 < b.duration_hours then
        some (b.scheduled_date, b.scheduled_date + 60 * b.duration_hours)
      else none
    .ok (generate_slots from_parsed to_parsed (slot_duration_minutes : Time) now blocking)

/-- The loop emits the maximal number of whole slots fitting in the
range. -/
theorem generate_slots_length :
    ∀ (s t delta now : Time) (blocking : List (Time × Time)), 0 < delta → s ≤ t →
      ((generate_slots s t delta now blocking).length : ℚ) * delta ≤ t - s ∧
      t - s < ((generate_slots s t delta now blocking).length + 1 : ℚ) * delta := by
  intro s t delta now blocking
  induction s, t, delta, now, blocking using generate_slots.induct with
  | case1 s t delta now blocking h ih =>
    intro hd hs
    rw [generate_slots, dif_pos h]
    obtain ⟨ih1, ih2⟩ := ih hd (by linarith [h.2])
    simp only [List.length_cons]
    push_cast
    push_cast at ih1 ih2
    exact ⟨by linarith, by linarith⟩
  | case2 s t delta now blocking h =>
    intro hd hs
    rw [generate_slots, dif_neg h]
    simp only [List.length_nil]
    refine ⟨by simpa using hs, ?_⟩
    push_cast
    have hnotfit : ¬(s + delta ≤ t) := fun hc => h ⟨hd, hc⟩
    linarith

/-- The i-th emitted slot starts at `s + i * delta`. -/
theorem generate_slots_get? :
    ∀ (s t delta now : Time) (blocking : List (Time × Time)) (i : ℕ),
      i < (generate_slots s t delta now blocking).length →
      (generate_slots s t delta now blocking).get? i =
        some (slot_item (s + (i : ℚ) * delta) delta now blocking) := by
  intro s t delta now blocking
  induction s, t, delta, now, blocking using generate_slots.induct with
  | case1 s t delta now blocking h ih =>
    intro i hi
    rw [generate_slots, dif_pos h] at hi ⊢
    cases i with
    | zero => norm_num
    | succ j =>
      simp only [List.get?_cons_succ]
      rw [ih j (by simpa using hi)]
      congr 2
      push_cast
      ring
  | case2 s t delta now blocking h =>
    intro i hi
    rw [generate_slots, dif_neg h] at hi
    simp at hi

/-- One loop iteration, written as the availability boolean of the spec:
available iff not past and no overlap with a fetched interval. -/
theorem slot_item_eq (s delta now : Time) (blocking : List (Time × Time)) :
    slot_item s delta now blocking =
      ⟨s, s + delta, decide (now < s + delta) &&
        !(blocking.any fun p => slot_overlap s (s + delta) p.1 p.2)⟩ := by
  simp only [slot_item]
  split
  · next hpast =>
    simp [show ¬(now < s + delta) from not_lt.mpr hpast]
  · next hfut =>
    simp [show now < s + delta from lt_of_not_ge fun hc => hfut (by linarith)]

/-- For a slot inside the requested range, overlap against the
date-filtered fetched intervals coincides with overlap against all
blocking-status bookings, provided every booking duration is positive and
at most 24 hours. -/
theorem blocking_filter_any (from_p to_p : Time) (bookings : List CgBooking)
    (hdur : ∀ b ∈ bookings, 0 < b.duration_hours ∧ b.duration_hours ≤ 24)
    (s e : Time) (hsf : from_p ≤ s) (het : e ≤ to_p) :
    ((bookings.filterMap fun b =>
        if b.status ∈ blocking_statuses_slots ∧ from_p - 1440 ≤ b.scheduled_date ∧
            b.scheduled_date ≤ to_p + 1440 ∧ 0 < b.duration_hours then
          some (b.scheduled_date, b.scheduled_date + 60 * b.duration_hours)
        else none).any fun p => slot_overlap s e p.1 p.2) =
      (bookings.any fun b => blocking_statuses_slots.contains b.status &&
        slot_overlap s e b.scheduled_date (b.scheduled_date + 60 * b.duration_hours)) := by
  induction bookings with
  | nil => rfl
  | cons b t ih =>
    have hdur_t : ∀ x ∈ t, 0 < x.duration_hours ∧ x.duration_hours ≤ 24 :=
      fun x hx => hdur x (List.mem_cons_of_mem _ hx)
    obtain ⟨hd0, hd24⟩ := hdur b (List.mem_cons_self _ _)
    by_cases hcond : b.status ∈ blocking_statuses_slots ∧
        from_p - 1440 ≤ b.scheduled_date ∧ b.scheduled_date ≤ to_p + 1440 ∧
        0 < b.duration_hours
    · simp only [List.filterMap_cons, if_pos hcond, List.any_cons, ih hdur_t]
      have hcont : blocking_statuses_slots.contains b.status = true :=
        List.elem_eq_true_of_mem hcond.1
      rw [hcont, Bool.true_and]
    · simp only [List.filterMap_cons, if_neg hcond, List.any_cons, ih hdur_t]
      have hhead : (blocking_statuses_slots.contains b.status &&
          slot_overlap s e b.scheduled_date (b.scheduled_date + 60 * b.duration_hours))
            = false := by
        by_cases hmem : b.status ∈ blocking_statuses_slots
        · have hrange : ¬(from_p - 1440 ≤ b.scheduled_date ∧
              b.scheduled_date ≤ to_p + 1440) := by
            intro hr
            exact hcond ⟨hmem, hr.1, hr.2, hd0⟩
          have hd1440 : 60 * b.duration_hours ≤ 1440 := by linarith
          have hov : slot_overlap s e b.scheduled_date
              (b.scheduled_date + 60 * b.duration_hours) = false := by
            rw [slot_overlap]
            rcases not_and_or.mp hrange with hlo | hhi
            · push_neg at hlo
              have hend : b.scheduled_date + 60 * b.duration_hours ≤ s := by linarith
              simp [show ¬(s < b.scheduled_date + 60 * b.duration_hours) from
                not_lt.mpr hend]
            · push_neg at hhi
              have hstart : e ≤ b.scheduled_date := by linarith
              simp [show ¬(b.scheduled_date < e) from not_lt.mpr hstart]
          rw [hov, Bool.and_false]
        · have hcont : blocking_statuses_slots.contains b.status = false := by
            rw [Bool.eq_false_iff]
            intro hc
            exact hmem (List.mem_of_elem_eq_true hc)
          rw [hcont, Bool.false_and]
      rw [hhead, Bool.false_or]

/-- C9 (amended): for a valid request on well-formed bookings (positive
durations of at most 24 hours), the listing succeeds and returns the
maximal sequence of contiguous slots of exactly `slot_duration_minutes`
starting at fromTime that fit in [fromTime, toTime) — a strict partition
of [fromTime, toTime) only when the slot length divides the range; any
trailing remainder shorter than one slot is omitted — and each slot is
marked available exactly when its end is after `now` and it overlaps (by
the overlap predicate) no booking of the caregiver with status in
{requested, accepted, confirmed, in_progress}. -/
theorem c9_slot_listing :
    ∀ (from_p to_p : Time) (dmin : Int) (now : Time) (bookings : List CgBooking),
      from_p < to_p → 0 < dmin →
      (∀ b ∈ bookings, 0 < b.duration_hours ∧ b.duration_hours ≤ 24) →
      ∃ slots, get_caregiver_slots from_p to_p dmin now bookings = .ok slots ∧
        ((slots.length : ℚ) * (dmin : ℚ) ≤ to_p - from_p ∧
          to_p - from_p < ((slots.length : ℚ) + 1) * (dmin : ℚ)) ∧
        ∀ i (hi : i < slots.length),
          slots.get ⟨i, hi⟩ =
            ⟨from_p + (i : ℚ) * (dmin : ℚ), from_p + ((i : ℚ) + 1) * (dmin : ℚ),
             decide (now < from_p + ((i : ℚ) + 1) * (dmin : ℚ)) &&
               !(bookings.any fun b => blocking_statuses_slots.contains b.status &&
                  slot_overlap (from_p + (i : ℚ) * (dmin : ℚ))
                    (from_p + ((i : ℚ) + 1) * (dmin : ℚ))
                    b.scheduled_date (b.scheduled_date + 60 * b.duration_hours))⟩ := by
  intro fp tp dmin now bookings hft hd hdur
  have hdq : (0 : ℚ) < (dmin : ℚ) := by exact_mod_cast hd
  refine ⟨generate_slots fp tp (dmin : ℚ) now (bookings.filterMap fun b =>
      if b.status ∈ blocking_statuses_slots ∧ fp - 1440 ≤ b.scheduled_date ∧
          b.scheduled_date ≤ tp + 1440 ∧ 0 < b.duration_hours then
        some (b.scheduled_date, b.scheduled_date + 60 * b.duration_hours)
      else none), ?_, ?_, ?_⟩
  · simp only [get_caregiver_slots]
    rw [if_neg (not_not_intro hft), if_neg (not_le.mpr hd)]
  · exact generate_slots_length fp tp (dmin : ℚ) now _ hdq (le_of_lt hft)
  · intro i hi
    have hbounds := generate_slots_length fp tp (dmin : ℚ) now (bookings.filterMap fun b =>
      if b.status ∈ blocking_statuses_slots ∧ fp - 1440 ≤ b.scheduled_date ∧
          b.scheduled_date ≤ tp + 1440 ∧ 0 < b.duration_hours then
        some (b.scheduled_date, b.scheduled_date + 60 * b.duration_hours)
      else none) hdq (le_of_lt hft)
    have hg := generate_slots_get? fp tp (dmin : ℚ) now (bookings.filterMap fun b =>
      if b.status ∈ blocking_statuses_slots ∧ fp - 1440 ≤ b.scheduled_date ∧
          b.scheduled_date ≤ tp + 1440 ∧ 0 < b.duration_hours then
        some (b.scheduled_date, b.scheduled_date + 60 * b.duration_hours)
      else none) i hi
    rw [List.get?_eq_get hi] at hg
    have hval := Option.some.inj hg
    rw [hval, slot_item_eq]
    have he : fp + (i : ℚ) * (dmin : ℚ) + (dmin : ℚ) =
        fp + ((i : ℚ) + 1) * (dmin : ℚ) := by ring
    rw [he]
    have hsf : fp ≤ fp + (i : ℚ) * (dmin : ℚ) := by
      have : (0 : ℚ) ≤ (i : ℚ) * (dmin : ℚ) :=
        mul_nonneg (Nat.cast_nonneg i) (le_of_lt hdq)
      linarith
    have hcast : (i : ℚ) + 1 ≤ ((generate_slots fp tp (dmin : ℚ) now
        (bookings.filterMap fun b =>
          if b.status ∈ blocking_statuses_slots ∧ fp - 1440 ≤ b.scheduled_date ∧
              b.scheduled_date ≤ tp + 1440 ∧ 0 < b.duration_hours then
            some (b.scheduled_date, b.scheduled_date + 60 * b.duration_hours)
          else none)).length : ℚ) := by
      have : (i : ℕ) + 1 ≤ (generate_slots fp tp (dmin : ℚ) now
          (bookings.filterMap fun b =>
            if b.status ∈ blocking_statuses_slots ∧ fp - 1440 ≤ b.scheduled_date ∧
                b.scheduled_date ≤ tp + 1440 ∧ 0 < b.duration_hours then
              some (b.scheduled_date, b.scheduled_date + 60 * b.duration_hours)
            else none)).length := hi
      exact_mod_cast this
    have het : fp + ((i : ℚ) + 1) * (dmin : ℚ) ≤ tp := by
      have hmul := mul_le_mul_of_nonneg_right hcast (le_of_lt hdq)
      linarith [hbounds.1]
    rw [blocking_filter_any fp tp bookings hdur _ _ hsf het]

/-- Witness for `c9_slot_listing`: a two-hour window, hour slots, empty
bookings table. -/
theorem c9_slot_listing_witness :
    ∃ slots, get_caregiver_slots 0 120 60 (-10) [] = .ok slots ∧
      ((slots.length : ℚ) * ((60 : Int) : ℚ) ≤ 120 - 0 ∧
        120 - 0 < ((slots.length : ℚ) + 1) * ((60 : Int) : ℚ)) ∧
      ∀ i (hi : i < slots.length),
        slots.get ⟨i, hi⟩ =
          ⟨0 + (i : ℚ) * ((60 : Int) : ℚ), 0 + ((i : ℚ) + 1) * ((60 : Int) : ℚ),
           decide ((-10 : ℚ) < 0 + ((i : ℚ) + 1) * ((60 : Int) : ℚ)) &&
             !(([] : List CgBooking).any fun b =>
                blocking_statuses_slots.contains b.status &&
                slot_overlap (0 + (i : ℚ) * ((60 : Int) : ℚ))
                  (0 + ((i : ℚ) + 1) * ((60 : Int) : ℚ))
                  b.scheduled_date (b.scheduled_date + 60 * b.duration_hours))⟩ :=
  c9_slot_listing 0 120 60 (-10) [] (by norm_num) (by norm_num) (by simp)

/-- Counterexample to C9 as stated: for the valid request [0, 90) with
60-minute slots, the returned slots cover only [0, 60), so the listing
does not partition all of [fromTime, toTime): the instant 70 lies in the
range but in no returned slot. -/
theorem c9_counterexample :
    get_caregiver_slots 0 90 60 (-10) [] = .ok [⟨0, 60, true⟩] ∧
    (0 : ℚ) ≤ 70 ∧ (70 : ℚ) < 90 ∧ ¬((70 : ℚ) < 60) := by
  refine ⟨?_, by norm_num, by norm_num, by norm_num⟩
  simp only [get_caregiver_slots]
  rw [if_neg (by norm_num), if_neg (by norm_num)]
  congr 1
  rw [generate_slots, dif_pos (by norm_num)]
  rw [generate_slots, dif_neg (by norm_num)]
  simp [slot_item]
  norm_num

/-! ## Video-call request creation pre-check (bookings.py lines 36-196)

Times are in seconds (one day = 86400 s; a booking of `duration_hours`
hours spans `3600 * duration_hours` seconds). -/

/-- The fields of a `video_call_requests` row inserted by creation. -/
structure VcrRow where
  care_recipient_id : String
  caregiver_id : String
  scheduled_time : Time
  duration_seconds : Rat
  status : String
deriving DecidableEq

/-- Outcome of video-call request creation. -/
inductive VcrOutcome where
  | created
  | conflict
deriving DecidableEq

/-- `create_video_call_request` (POST /video-call/request, lines 36-196)
restricted to its busy pre-check and insert (lines 70-110): fetch the
caregiver's bookings with status in {accepted, confirmed, in_progress}
whose scheduled_date is within one day of the call, raise Conflict when
one overlaps [scheduled_time, scheduled_time + duration_seconds), else
insert the pending request. -/
def create_video_call_request (cr cg : String) (st : Time) (duration_seconds : Rat)
    (bookings : List CgBooking) (vcrs : List VcrRow) : List VcrRow × VcrOutcome :=
  let call_end := st + duration_seconds
  let busy := bookings.any fun b =>
    blocking_statuses_video_request.contains b.status &&
    decide (st - 86400 ≤ b.scheduled_date) && decide (b.scheduled_date ≤ st + 86400) &&
    slot_overlap st call_end b.scheduled_date (b.scheduled_date + 3600 * b.duration_hours)
  if busy then (vcrs, .conflict)
  else (vcrs ++ [⟨cr, cg, st, duration_seconds, "pending"⟩], .created)

/-- C10: creating a video-call request fails with Conflict exactly when
the caregiver has a booking with status in {accepted, confirmed,
in_progress} overlapping [scheduled_time, scheduled_time +
duration_seconds) (given well-formed durations, the one-day fetch window
loses no overlapping booking); on conflict no request row is inserted;
and the pre-check's blocking set is strictly narrower than the
slot-availability one, omitting exactly "requested". -/
theorem c10_video_request_precheck :
    (∀ (cr cg : String) (st dsec : Time) (bookings : List CgBooking) (vcrs : List VcrRow),
      (∀ b ∈ bookings, 0 < b.duration_hours ∧ b.duration_hours ≤ 24) →
      dsec ≤ 86400 →
      (((create_video_call_request cr cg st dsec bookings vcrs).2 = .conflict) ↔
        ∃ b ∈ bookings, b.status ∈ blocking_statuses_video_request ∧
          slot_overlap st (st + dsec) b.scheduled_date
            (b.scheduled_date + 3600 * b.duration_hours) = true) ∧
      ((create_video_call_request cr cg st dsec bookings vcrs).2 = .conflict →
        (create_video_call_request cr cg st dsec bookings vcrs).1 = vcrs)) ∧
    (∀ x ∈ blocking_statuses_video_request, x ∈ blocking_statuses_slots) ∧
    "requested" ∈ blocking_statuses_slots ∧
    "requested" ∉ blocking_statuses_video_request := by
  refine ⟨fun cr cg st dsec bookings vcrs hdur hsec => ⟨?_, ?_⟩, by decide, by decide,
    by decide⟩
  · simp only [create_video_call_request]
    by_cases hc : (bookings.any fun b =>
        blocking_statuses_video_request.contains b.status &&
        decide (st - 86400 ≤ b.scheduled_date) && decide (b.scheduled_date ≤ st + 86400) &&
        slot_overlap st (st + dsec) b.scheduled_date
          (b.scheduled_date + 3600 * b.duration_hours)) = true
    · simp only [hc, reduceIte]
      obtain ⟨b, hb, hcomb⟩ := List.any_eq_true.mp hc
      simp only [Bool.and_eq_true, decide_eq_true_eq] at hcomb
      obtain ⟨⟨⟨hcont, _⟩, _⟩, hov⟩ := hcomb
      simp only [true_iff]
      exact ⟨b, hb, List.mem_of_elem_eq_true hcont, hov⟩
    · simp only [hc, reduceIte]
      constructor
      · intro hfalse
        exact absurd hfalse (by simp)
      · rintro ⟨b, hb, hmem, hov⟩
        exfalso
        apply hc
        refine List.any_eq_true.mpr ⟨b, hb, ?_⟩
        obtain ⟨hd0, hd24⟩ := hdur b hb
        have hovp := hov
        simp only [slot_overlap, Bool.and_eq_true, decide_eq_true_eq] at hovp
        obtain ⟨h1, h2⟩ := hovp
        have hr1 : st - 86400 ≤ b.scheduled_date := by nlinarith
        have hr2 : b.scheduled_date ≤ st + 86400 := by linarith
        simp only [Bool.and_eq_true, decide_eq_true_eq]
        exact ⟨⟨⟨List.elem_eq_true_of_mem hmem, hr1⟩, hr2⟩, hov⟩
  · simp only [create_video_call_request]
    by_cases hc : (bookings.any fun b =>
        blocking_statuses_video_request.contains b.status &&
        decide (st - 86400 ≤ b.scheduled_date) && decide (b.scheduled_date ≤ st + 86400) &&
        slot_overlap st (st + dsec) b.scheduled_date
          (b.scheduled_date + 3600 * b.duration_hours)) = true
    · simp only [hc, reduceIte]
      intro _
      trivial
    · simp only [hc, reduceIte]
      intro hfalse
      exact absurd hfalse (by simp)

/-- Witness for `c10_video_request_precheck`: a caregiver with one
accepted booking covering the requested instant yields Conflict. -/
theorem c10_video_request_precheck_witness :
    ((create_video_call_request "r" "g" 1000 15 [⟨"accepted", 0, 1⟩] []).2 = .conflict ↔
      ∃ b ∈ [(⟨"accepted", 0, 1⟩ : CgBooking)],
        b.status ∈ blocking_statuses_video_request ∧
        slot_overlap 1000 (1000 + 15) b.scheduled_date
          (b.scheduled_date + 3600 * b.duration_hours) = true) ∧
    ((create_video_call_request "r" "g" 1000 15 [⟨"accepted", 0, 1⟩] []).2 = .conflict →
      (create_video_call_request "r" "g" 1000 15 [⟨"accepted", 0, 1⟩] []).1 = []) :=
  (c10_video_request_precheck.1 "r" "g" 1000 15 [⟨"accepted", 0, 1⟩] []
    (by intro b hb; simp at hb; subst hb; norm_num) (by norm_num))

/-! ## Atomic slot allocator (spec section 4.3; caller bookings.py lines
1138-1242) -/

/-- A booking row as seen by the allocator. -/
structure SBooking where
  caregiver_id : String
  start : Time
  stop : Time
  status : String
deriving DecidableEq

/-- Allocator outcome: the insert, or Conflict ("slot already booked"). -/
inductive AllocOutcome where
  | ok
  | conflict
deriving DecidableEq

/-- Modelled from the spec: the `book_slot_atomic` PostgreSQL function is
not in the repository sources (only its caller `_call_book_slot_atomic`,
bookings.py lines 1138-1192, which maps its `slot_already_booked` error to
Conflict).  Per spec section 4.3 it is a single atomic transaction that
locks the caregiver's blocking bookings, re-checks the overlap predicate
under that lock, and only then inserts the booking with status
"requested"; otherwise it fails with Conflict. -/
def book_slot_atomic (state : List SBooking) (caregiver : String) (start stop : Time) :
    List SBooking × AllocOutcome :=
  if state.any fun b => b.caregiver_id == caregiver &&
      blocking_statuses_slots.contains b.status &&
      slot_overlap start stop b.start b.stop then
    (state, .conflict)
  else
    (state ++ [⟨caregiver, start, stop, "requested"⟩], .ok)

/-- Modelled from the spec: atomicity (spec sections 4.3 and 5) serializes
concurrent `book_slot_atomic` calls, so a set of simultaneous calls
executes as this fold in some arbitrary interleaving order. -/
def run_allocator (state : List SBooking) (caregiver : String) :
    List (Time × Time) → List SBooking × List AllocOutcome
  | [] => (state, [])
  | r :: rs =>
    let step := book_slot_atomic state caregiver r.1 r.2
    let rest := run_allocator step.1 caregiver rs
    (rest.1, step.2 :: rest.2)

/-- The overlap predicate is symmetric (helper for the allocator proof). -/
theorem slot_overlap_comm (a b c d : Time) :
    slot_overlap a b c d = slot_overlap c d a b := by
  simp only [slot_overlap]
  by_cases h1 : a < d <;> by_cases h2 : c < b <;>
    simp [h1, h2, Bool.and_comm]

/-- When the state already blocks every request, every call conflicts and
the state never changes. -/
theorem run_allocator_all_conflict (caregiver : String) :
    ∀ (reqs : List (Time × Time)) (state : List SBooking),
      (∀ r ∈ reqs, (state.any fun b => b.caregiver_id == caregiver &&
          blocking_statuses_slots.contains b.status &&
          slot_overlap r.1 r.2 b.start b.stop) = true) →
      run_allocator state caregiver reqs = (state, reqs.map fun _ => .conflict) := by
  intro reqs
  induction reqs with
  | nil => intro state _; rfl
  | cons r rs ih =>
    intro state h
    have hr := h r (List.mem_cons_self _ _)
    simp only [run_allocator, book_slot_atomic, hr, reduceIte]
    rw [ih state fun x hx => h x (List.mem_cons_of_mem _ hx)]
    rfl

/-- C1: for any caregiver, any prior state and any set of concurrent
`book_slot_atomic` calls whose windows pairwise overlap — executed in any
serial order, as the atomic transaction guarantees — at most one call
succeeds in inserting its blocking ("requested") booking; every call
either succeeds or fails with Conflict. -/
theorem c1_no_double_booking :
    ∀ (state : List SBooking) (caregiver : String) (reqs : List (Time × Time)),
      reqs.Pairwise (fun a b => slot_overlap a.1 a.2 b.1 b.2 = true) →
      (run_allocator state caregiver reqs).2.count .ok ≤ 1 ∧
      ∀ o ∈ (run_allocator state caregiver reqs).2, o = .ok ∨ o = .conflict := by
  intro state caregiver reqs
  induction reqs generalizing state with
  | nil =>
    intro _
    exact ⟨by simp [run_allocator], by simp [run_allocator]⟩
  | cons r rs ih =>
    intro hpw
    obtain ⟨hr, hpw2⟩ := List.pairwise_cons.mp hpw
    by_cases hc : (state.any fun b => b.caregiver_id == caregiver &&
        blocking_statuses_slots.contains b.status &&
        slot_overlap r.1 r.2 b.start b.stop) = true
    · simp only [run_allocator, book_slot_atomic, hc, reduceIte]
      obtain ⟨ih1, ih2⟩ := ih state hpw2
      constructor
      · simpa [List.count_cons] using ih1
      · intro o ho
        rcases List.mem_cons.mp ho with ho | ho
        · subst ho; exact Or.inr rfl
        · exact ih2 o ho
    · simp only [run_allocator, book_slot_atomic]
      rw [if_neg hc]
      dsimp only
      have hall : ∀ x ∈ rs,
          ((state ++ [(⟨caregiver, r.1, r.2, "requested"⟩ : SBooking)]).any fun b =>
          b.caregiver_id == caregiver && blocking_statuses_slots.contains b.status &&
          slot_overlap x.1 x.2 b.start b.stop) = true := by
        intro x hx
        have hmem : (⟨caregiver, r.1, r.2, "requested"⟩ : SBooking) ∈
            state ++ [⟨caregiver, r.1, r.2, "requested"⟩] := by simp
        refine List.any_eq_true.mpr ⟨⟨caregiver, r.1, r.2, "requested"⟩, hmem, ?_⟩
        simp only [Bool.and_eq_true]
        refine ⟨⟨by simp, by decide⟩, ?_⟩
        rw [slot_overlap_comm]
        exact hr x hx
      rw [run_allocator_all_conflict caregiver rs _ hall]
      dsimp only
      have hz : (List.map (fun _ => AllocOutcome.conflict) rs).count .ok = 0 := by
        rw [List.count_eq_zero]
        intro hmem
        obtain ⟨x, _, hx⟩ := List.mem_map.mp hmem
        exact absurd hx (by decide)
      constructor
      · rw [List.count_cons, hz]
        simp
      · intro o ho
        rcases List.mem_cons.mp ho with ho | ho
        · subst ho; exact Or.inl rfl
        · obtain ⟨x, _, hx⟩ := List.mem_map.mp ho
          exact Or.inr hx.symm

/-- Witness for `c1_no_double_booking`: two simultaneous requests for the
same slot of caregiver "g" from an empty table — at most one succeeds. -/
theorem c1_no_double_booking_witness :
    (run_allocator [] "g" [((0 : ℚ), (60 : ℚ)), ((0 : ℚ), (60 : ℚ))]).2.count .ok ≤ 1 ∧
    ∀ o ∈ (run_allocator [] "g" [((0 : ℚ), (60 : ℚ)), ((0 : ℚ), (60 : ℚ))]).2,
      o = .ok ∨ o = .conflict :=
  c1_no_double_booking [] "g" [((0 : ℚ), (60 : ℚ)), ((0 : ℚ), (60 : ℚ))] (by
    refine List.Pairwise.cons ?_ (List.pairwise_singleton _ _)
    intro x hx
    rw [List.mem_singleton] at hx
    subst hx
    decide)

end AssistLink
